import Mathlib

/-!
Verification of the orbix client library core: the rate admission gate,
retry policy, TTL/LRU cache, cache-key computation, HTTP response
classifier, and the fan-out avatar composition, shallowly embedded from
the Python source (`orbix/core/utils.py`, `orbix/core/http.py`,
`orbix/client.py`).  Wall-clock time is passed explicitly as a rational
(`now : ℚ`); Python float timestamps are rationals.
-/

namespace Orbix

/-- Python exception kinds that can escape the modelled code paths
besides the library's own error taxonomy. -/
inductive PyErr where
  | valueError
  | attributeError
  | keyError
  | indexError
  | typeError
  deriving DecidableEq, Repr

/-- Python `int()` applied to a float/rational: truncation toward zero.
`Int.div` is T-division, which truncates toward zero just as `int()` does. -/
def pyInt (q : ℚ) : ℤ :=
  Int.tdiv q.num (q.den : ℤ)

/-! ## Rate admission gate (`orbix/core/utils.py`, `rate_limit`) -/

/-- The purge loop of `rate_limit.wrapper`:
`while call_times and now - call_times[0] >= 60: call_times.popleft()`.
The window is a deque with the oldest timestamp at the front. -/
def purgeWindow (now : ℚ) : List ℚ → List ℚ
  | [] => []
  | t :: ts => if 60 ≤ now - t then purgeWindow now ts else t :: ts

/-- Outcome of one admission check: the call is admitted (with the
updated window), rejected with `RateLimitError(retryAfter)`, or the
code itself faults (`call_times[0]` on an empty deque, reachable only
for `calls_per_minute = 0`). -/
inductive AdmitResult where
  | allowed (window : List ℚ)
  | rateLimited (retryAfter : ℤ)
  | indexError
  deriving DecidableEq, Repr

/-- One admission check of the `rate_limit(calls_per_minute)` wrapper at
time `now` with current window `w`: purge entries aged ≥ 60 s; if the
remaining count reaches `calls_per_minute`, raise
`RateLimitError(int(60 - (now - call_times[0])))`; otherwise append
`now` and allow. -/
def rateAdmit (callsPerMinute : ℕ) (w : List ℚ) (now : ℚ) : AdmitResult :=
  let w' := purgeWindow now w
  if callsPerMinute ≤ w'.length then
    match w' with
    | [] => .indexError
    | t0 :: _ => .rateLimited (pyInt (60 - (now - t0)))
  else
    .allowed (w' ++ [now])

/-! ## Retry policy (`orbix/core/utils.py`, `retry_on_failure`) -/

/-- The loop of `retry_on_failure(max_retries, backoff_factor).wrapper`,
driven by the outcome `f i` of the i-th invocation of the wrapped
operation.  Returns the final outcome (`.error none` models
`raise None`, reachable only with zero attempts), the number of times
the operation body was invoked, and the list of back-off sleeps
performed.  `fuel` is the number of attempts remaining, initially
`max_retries + 1`. -/
def retryGo (backoff : ℚ) (f : ℕ → Except ε α) :
    ℕ → ℕ → Except (Option ε) α × ℕ × List ℚ
  | _, 0 => (.error none, 0, [])
  | attempt, fuel + 1 =>
    match f attempt with
    | .ok a => (.ok a, 1, [])
    | .error e =>
      match fuel with
      | 0 => (.error (some e), 1, [])
      | fuel' + 1 =>
        let r := retryGo backoff f (attempt + 1) (fuel' + 1)
        (r.1, r.2.1 + 1, backoff * 2 ^ attempt :: r.2.2)

/-- The wrapper `retry_on_failure(max_retries, backoff_factor)` applied to an
operation whose i-th invocation yields `f i`. -/
def retryRun (maxRetries : ℕ) (backoff : ℚ) (f : ℕ → Except ε α) :
    Except (Option ε) α × ℕ × List ℚ :=
  retryGo backoff f 0 (maxRetries + 1)

/-! ## Generic lemmas about the gate and the retry loop -/

theorem purgeWindow_of_head_fresh (now : ℚ) (w : List ℚ)
    (h : ∀ t ∈ w.head?, now - t < 60) : purgeWindow now w = w := by
  cases w with
  | nil => rfl
  | cons t ts =>
    have ht : now - t < 60 := h t rfl
    simp [purgeWindow, not_le.mpr ht]

theorem purgeWindow_eq_filter_of_sorted (now : ℚ) :
    ∀ w : List ℚ, w.Sorted (· ≤ ·) →
      purgeWindow now w = w.filter (fun t => decide (now - t < 60)) := by
  intro w hw
  induction w with
  | nil => rfl
  | cons t ts ih =>
    rw [List.sorted_cons] at hw
    by_cases h : 60 ≤ now - t
    · rw [purgeWindow, if_pos h, List.filter_cons, ih hw.2]
      have hnt : ¬(now - t < 60) := not_lt.mpr h
      simp [hnt]
    · have hlt : now - t < 60 := not_le.mp h
      have hfresh : ∀ u ∈ (t :: ts).head?, now - u < 60 := by
        intro u hu
        simp only [List.head?_cons, Option.mem_some_iff] at hu
        subst hu; exact hlt
      rw [purgeWindow_of_head_fresh now (t :: ts) hfresh]
      have hallts : ∀ u ∈ ts, now - u < 60 := by
        intro u hu
        have := hw.1 u hu
        linarith
      rw [List.filter_cons]
      have hts : List.filter (fun u => decide (now - u < 60)) ts = ts := by
        rw [List.filter_eq_self]
        exact fun u hu => decide_eq_true (hallts u hu)
      simp [hlt, hts]

theorem retryGo_all_fail (backoff : ℚ) (f : ℕ → Except ε α) (g : ℕ → ε) :
    ∀ fuel attempt, (∀ i, attempt ≤ i → i ≤ attempt + fuel → f i = .error (g i)) →
      retryGo backoff f attempt (fuel + 1) =
        (.error (some (g (attempt + fuel))), fuel + 1,
          (List.range fuel).map (fun j => backoff * 2 ^ (attempt + j))) := by
  intro fuel
  induction fuel with
  | zero =>
    intro attempt h
    have h0 : f attempt = .error (g attempt) := h attempt le_rfl (by omega)
    simp [retryGo, h0]
  | succ fuel' ih =>
    intro attempt h
    have h0 : f attempt = .error (g attempt) := h attempt le_rfl (by omega)
    have hrec := ih (attempt + 1) (fun i hi hi' => h i (by omega) (by omega))
    have he : attempt + 1 + fuel' = attempt + (fuel' + 1) := by omega
    have hlist : (List.range (fuel' + 1)).map (fun j => backoff * 2 ^ (attempt + j)) =
        backoff * 2 ^ attempt ::
          (List.range fuel').map (fun j => backoff * 2 ^ (attempt + 1 + j)) := by
      rw [List.range_succ_eq_map, List.map_cons, List.map_map]
      refine List.cons_eq_cons.mpr ⟨by norm_num, ?_⟩
      apply List.map_congr_left
      intro j hj
      have he2 : attempt + (j + 1) = attempt + 1 + j := by omega
      simp only [Function.comp_apply, Nat.succ_eq_add_one, he2]
    simp only [retryGo, h0, hrec, hlist]
    rw [he]

/-! ## TTL/LRU cache (`orbix/core/utils.py`, `APICache`)

`self._cache` is an `OrderedDict[str, tuple[float, Any]]`, modelled as an
association list with the least-recently-used binding at the front and the
most-recently-used at the back.  A Python dict never holds a key twice, so
erasure by key is modelled as a filter. -/

variable {α : Type*}

/-- A cache binding: key, `storedAt` timestamp, value. -/
abbrev CacheEntry (α : Type*) := String × ℚ × α

def eraseKey (k : String) (c : List (CacheEntry α)) : List (CacheEntry α) :=
  c.filter (fun e => e.1 ≠ k)

def lookupKey (k : String) (c : List (CacheEntry α)) : Option (ℚ × α) :=
  (c.find? (fun e => e.1 = k)).map (·.2)

/-- Model of `OrderedDict.move_to_end(key)`: remove the binding and re-append it at
the most-recently-used end. -/
def moveToEnd (k : String) (c : List (CacheEntry α)) : List (CacheEntry α) :=
  match lookupKey k c with
  | none => c
  | some tv => eraseKey k c ++ [(k, tv.1, tv.2)]

/-- Model of `APICache.get` at time `now`: `None` if the key is unknown; if
`now - timestamp > ttl`, delete the entry and return `None`; otherwise
move the entry to the most-recently-used end and return the value.
Returns the result together with the updated store. -/
def cacheGet (ttl : ℚ) (c : List (CacheEntry α)) (now : ℚ) (k : String) :
    Option α × List (CacheEntry α) :=
  match lookupKey k c with
  | none => (none, c)
  | some (ts, v) =>
    if ttl < now - ts then (none, eraseKey k c)
    else (some v, moveToEnd k c)

/-- The eviction loop of `APICache.set`:
`while len(self._cache) >= self._max_size: self._cache.popitem(last=False)`.
`popitem(last=False)` pops the least-recently-used (front) binding and
raises `KeyError` (modelled as `none`) on an empty dict. -/
def evictLoop (maxSize : ℕ) : List (CacheEntry α) → Option (List (CacheEntry α))
  | [] => if maxSize = 0 then none else some []
  | e :: es => if maxSize ≤ (e :: es).length then evictLoop maxSize es else some (e :: es)

/-- Model of `APICache.set` at time `now`: delete any existing binding for the key,
run the eviction loop, then append `(now, value)` at the
most-recently-used end. -/
def cacheSet (maxSize : ℕ) (c : List (CacheEntry α)) (now : ℚ) (k : String) (v : α) :
    Option (List (CacheEntry α)) :=
  (evictLoop maxSize (eraseKey k c)).map (· ++ [(k, now, v)])

/-- Model of `APICache.clear`. -/
def cacheClear (_c : List (CacheEntry α)) : List (CacheEntry α) := []

/-- One operation against an `APICache` (the time of the call is carried
by the operation). -/
inductive CacheOp (α : Type*) where
  | get (now : ℚ) (k : String)
  | set (now : ℚ) (k : String) (v : α)
  | clear

/-- Apply one operation to the store (`none` models the `KeyError` of the
eviction loop, reachable only with `max_size = 0`). -/
def applyOp (ttl : ℚ) (maxSize : ℕ) (c : List (CacheEntry α)) :
    CacheOp α → Option (List (CacheEntry α))
  | .get now k => some (cacheGet ttl c now k).2
  | .set now k v => cacheSet maxSize c now k v
  | .clear => some (cacheClear c)

/-! ## Cache key (`orbix/core/http.py`, `HTTPClient.request`) -/

/-- A JSON-serialisable query-parameter value as used by the client
(strings and integers). -/
inductive JVal where
  | s (v : String)
  | n (v : ℤ)
  deriving DecidableEq, Repr

/-- Key order used by `json.dumps(params, sort_keys=True)`. -/
def keyLE (a b : String × JVal) : Prop := a.1 ≤ b.1

instance : DecidableRel (@keyLE) := fun a b => inferInstanceAs (Decidable (a.1 ≤ b.1))

instance : IsTotal (String × JVal) keyLE := ⟨fun a b => le_total a.1 b.1⟩

instance : IsTrans (String × JVal) keyLE := ⟨fun _ _ _ hab hbc => le_trans hab hbc⟩

def dumpJVal : JVal → String
  | .s v => "\"" ++ v ++ "\""
  | .n v => toString v

/-- Model of `json.dumps(params, sort_keys=True)`: serialise the mapping with keys
in sorted order. -/
def pyDumpsSorted (ps : List (String × JVal)) : String :=
  "\x7b" ++ String.intercalate ", "
      ((ps.insertionSort keyLE).map (fun p => dumpJVal (.s p.1) ++ ": " ++ dumpJVal p.2))
    ++ "\x7d"

/-- The cache key computed in `HTTPClient.request`:
`f"{method}:{url}:{dumps(params, sort_keys=True) if params else ''}"`. -/
def cacheKey (method url : String) (params : List (String × JVal)) : String :=
  method ++ ":" ++ url ++ ":" ++ (if params.isEmpty then "" else pyDumpsSorted params)

/-! ## JSON values and Python-ish helpers -/

/-- A JSON value (Python `None`/`json` decode result). -/
inductive Json where
  | null
  | jstr (s : String)
  | jnum (n : ℤ)
  | jbool (b : Bool)
  | jarr (xs : List Json)
  | jobj (fields : List (String × Json))

/-- Lookup in a JSON object's field list (dict lookup; dict keys are
unique, so the first match is the only one). -/
def jlookup (fields : List (String × Json)) (k : String) : Option Json :=
  (fields.find? (fun e => e.1 = k)).map (·.2)

/-- Python truthiness of a decoded JSON value. -/
def Json.truthy : Json → Bool
  | .null => false
  | .jstr s => !s.isEmpty
  | .jnum n => n ≠ 0
  | .jbool b => b
  | .jarr xs => !xs.isEmpty
  | .jobj fs => !fs.isEmpty

/-- Python `int(s)` on a string: optional sign followed by at least one
digit (surrounding whitespace and underscore grouping left aside — the
inputs of interest contain letters or are plain digit strings). -/
def pyIntOfString (s : String) : Option ℤ :=
  let core (ds : List Char) : Option ℕ :=
    if ds = [] ∨ ¬ds.all (·.isDigit) then none
    else some (ds.foldl (fun acc c => 10 * acc + (c.toNat - 48)) 0)
  match s.toList with
  | '-' :: rest => (core rest).map (fun n => -(n : ℤ))
  | '+' :: rest => (core rest).map (fun n => (n : ℤ))
  | ds => (core ds).map (fun n => (n : ℤ))

/-! ## Response classifier (`orbix/core/http.py`, `_handle_response_errors`) -/

/-- The transport response surface the classifier reads: status code,
request URL, the `Retry-After` header if present, and the JSON decoding
of the body (`none` when the body fails to decode as JSON, i.e.
`JSONDecodeError` / `ContentTypeError`). -/
structure TransportResponse where
  status : ℕ
  url : String
  retryAfterHeader : Option String
  jsonBody : Option Json

/-- The library's classified errors raised by the classifier. -/
inductive ClassifiedError where
  | userNotFound (url : String)
  | apiError (message : Json) (status : ℕ)
  | rateLimited (retryAfter : Option ℤ)

/-- Outcome of `_handle_response_errors`: return normally, raise a
classified library error, or fault with an unclassified Python error. -/
inductive ClassifyOutcome where
  | ok
  | raised (e : ClassifiedError)
  | pyError (e : PyErr)

/-- Model of `HTTPClient._handle_response_errors`: 200 → return; 404 → if
`"/users/" in str(response.url)` raise `UserNotFoundError(url)` else
`RobloxAPIError("resource not found", 404)`; 429 → read `Retry-After`,
raise `RateLimitError(int(h) if h else None)` (where `int` can itself
raise `ValueError`); otherwise read a JSON error body and raise
`RobloxAPIError(body.get("message", f"HTTP {status}"), status)`, falling
back to the `HTTP {status}` message when the body does not decode. -/
def handleResponseErrors (r : TransportResponse) : ClassifyOutcome :=
  if r.status = 200 then .ok
  else if r.status = 404 then
    if "/users/".toList <:+: r.url.toList then .raised (.userNotFound r.url)
    else .raised (.apiError (.jstr "resource not found") r.status)
  else if r.status = 429 then
    match r.retryAfterHeader with
    | none => .raised (.rateLimited none)
    | some h =>
      if h.isEmpty then .raised (.rateLimited none)
      else
        match pyIntOfString h with
        | some n => .raised (.rateLimited (some n))
        | none => .pyError .valueError
  else
    match r.jsonBody with
    | none => .raised (.apiError (.jstr ("HTTP " ++ toString r.status)) r.status)
    | some (.jobj fs) =>
      .raised (.apiError ((jlookup fs "message").getD
        (.jstr ("HTTP " ++ toString r.status))) r.status)
    | some _ => .pyError .attributeError

/-! ## Avatar fan-out (`orbix/client.py`, `get_user_avatar`,
`_extract_thumbnail_url`) -/

/-- Model of `OrbixClient._extract_thumbnail_url`:
`data = response.get("data"); if not data: return ""; return
data[0].get("imageUrl", "")`.  Faults with the corresponding Python
error when the response is not a dict / `data[0]` is not a dict. -/
def extractThumbnailUrl (response : Json) : Except PyErr Json :=
  match response with
  | .jobj fields =>
    let data := (jlookup fields "data").getD .null
    if data.truthy = false then .ok (.jstr "")
    else
      match data with
      | .jarr (x :: _) =>
        match x with
        | .jobj xf => .ok ((jlookup xf "imageUrl").getD (.jstr ""))
        | _ => .error .attributeError
      | .jarr [] => .error .indexError
      | .jobj _ => .error .keyError
      | _ => .error .typeError
  | _ => .error .attributeError

/-- The composite avatar record (`UserAvatar`), URL fields in the
positional order headshot, bust, full body. -/
structure UserAvatar where
  userId : ℤ
  headshotUrl : Json
  bustUrl : Json
  fullBodyUrl : Json

/-- Model of `OrbixClient.get_user_avatar` after the `gather(...,
return_exceptions=True)` join: each sub-result that is an exception is
replaced by `{}` before URL extraction, and the three extracted URLs are
assigned positionally. -/
def getUserAvatar (userId : ℤ) (r0 r1 r2 : Except ClassifiedError Json) :
    Except PyErr UserAvatar :=
  let orEmpty : Except ClassifiedError Json → Json := fun r =>
    match r with
    | .ok j => j
    | .error _ => .jobj []
  do
    let u0 ← extractThumbnailUrl (orEmpty r0)
    let u1 ← extractThumbnailUrl (orEmpty r1)
    let u2 ← extractThumbnailUrl (orEmpty r2)
    return ⟨userId, u0, u1, u2⟩

/-! ## Batch user lookup (`orbix/client.py`, `get_users_batch`)

The public method is `@rate_limit(calls_per_minute=120)` wrapping
`@retry_on_failure(max_retries=3)` wrapping the body.  The body is
modelled against an abstract transport oracle `post`; its return value is
the raw `response.get("data", [])` item list (per-item profile shaping is
pure data transformation outside the core). -/

/-- Errors escaping one invocation of the `get_users_batch` body: a local
Python error (the `ValueError` guard or a shape fault) or a classified
transport error. -/
abbrev BatchErr := PyErr ⊕ ClassifiedError

/-- One invocation of the `get_users_batch` body: raise
`ValueError("batch limited to 100 users")` when more than 100 ids are
passed; return `[]` on an empty list; otherwise POST and read
`response.get("data", [])`.  The second component counts network calls
made by this invocation. -/
def getUsersBatchBody (userIds : List ℤ)
    (post : List ℤ → Except ClassifiedError Json) :
    Except BatchErr (List Json) × ℕ :=
  if 100 < userIds.length then (.error (.inl .valueError), 0)
  else if userIds.isEmpty then (.ok [], 0)
  else
    match post userIds with
    | .error e => (.error (.inr e), 1)
    | .ok response =>
      match response with
      | .jobj fs =>
        match (jlookup fs "data").getD (.jarr []) with
        | .jarr items => (.ok items, 1)
        | _ => (.error (.inl .typeError), 1)
      | _ => (.error (.inl .attributeError), 1)

/-- Trace of one call of the decorated `get_users_batch`: the admission
outcome, the final result (`none` when admission already failed), how
many times the operation body ran, and how many network calls were made
in total. -/
structure BatchTrace where
  admitted : AdmitResult
  result : Option (Except (Option BatchErr) (List Json))
  bodyInvocations : ℕ
  networkCalls : ℕ

/-- One call of `get_users_batch` through its decorator stack:
`rate_limit(120)` admission first, then `retry_on_failure(3)` (with the
default `backoff_factor = 1.0`) around the body. -/
def getUsersBatchCall (w : List ℚ) (now : ℚ) (userIds : List ℤ)
    (post : List ℤ → Except ClassifiedError Json) : BatchTrace :=
  match rateAdmit 120 w now with
  | .allowed w' =>
    let body := getUsersBatchBody userIds post
    let r := retryRun 3 1 (fun _ => body.1)
    ⟨.allowed w', some r.1, r.2.1, r.2.1 * body.2⟩
  | a => ⟨a, none, 0, 0⟩

/-! # Lemmas about the cache store -/

theorem evictLoop_length {m : ℕ} :
    ∀ {l l' : List (CacheEntry α)}, evictLoop m l = some l' → l'.length < m := by
  intro l
  induction l with
  | nil =>
    intro l' h
    rw [evictLoop] at h
    by_cases hm : m = 0
    · rw [if_pos hm] at h; exact absurd h (by simp)
    · rw [if_neg hm] at h
      cases h
      simpa using Nat.pos_of_ne_zero hm
  | cons e es ih =>
    intro l' h
    rw [evictLoop] at h
    by_cases hm : m ≤ (e :: es).length
    · rw [if_pos hm] at h; exact ih h
    · rw [if_neg hm] at h
      cases h
      exact not_le.mp hm

theorem evictLoop_of_lt {m : ℕ} {l : List (CacheEntry α)} (h : l.length < m) :
    evictLoop m l = some l := by
  cases l with
  | nil =>
    rw [evictLoop, if_neg]
    omega
  | cons e es =>
    rw [evictLoop, if_neg (not_le.mpr h)]

theorem evictLoop_mem {m : ℕ} :
    ∀ {l l' : List (CacheEntry α)}, evictLoop m l = some l' → ∀ e ∈ l', e ∈ l := by
  intro l
  induction l with
  | nil =>
    intro l' h e he
    rw [evictLoop] at h
    by_cases hm : m = 0
    · rw [if_pos hm] at h; exact absurd h (by simp)
    · rw [if_neg hm] at h; cases h; simp at he
  | cons a as ih =>
    intro l' h e he
    rw [evictLoop] at h
    by_cases hm : m ≤ (a :: as).length
    · rw [if_pos hm] at h
      exact List.mem_cons_of_mem a (ih h e he)
    · rw [if_neg hm] at h; cases h; exact he

theorem evictLoop_pop_head {m : ℕ} (e : CacheEntry α)
    (es : List (CacheEntry α)) (h : (e :: es).length = m) :
    evictLoop m (e :: es) = some es := by
  rw [evictLoop, if_pos (le_of_eq h.symm)]
  exact evictLoop_of_lt (by simp at h; omega)

theorem eraseKey_of_not_mem {k : String} {l : List (CacheEntry α)}
    (h : k ∉ l.map (fun e => e.1)) : eraseKey k l = l := by
  rw [eraseKey, List.filter_eq_self]
  intro e he
  have : e.1 ≠ k := by
    intro hk
    exact h (List.mem_map.mpr ⟨e, he, hk⟩)
  simpa using this

theorem eraseKey_length_le (k : String) (l : List (CacheEntry α)) :
    (eraseKey k l).length ≤ l.length :=
  List.length_filter_le _ l

theorem eraseKey_length_lt {k : String} {l : List (CacheEntry α)}
    (h : k ∈ l.map (fun e => e.1)) : (eraseKey k l).length < l.length := by
  obtain ⟨e, he, hk⟩ := List.mem_map.mp h
  rw [eraseKey]
  apply List.length_filter_lt_length_iff_exists.mpr
  exact ⟨e, he, by simpa using hk⟩

theorem eraseKey_not_mem_keys (k : String) (l : List (CacheEntry α)) :
    k ∉ (eraseKey k l).map (fun e => e.1) := by
  intro h
  obtain ⟨e, he, hk⟩ := List.mem_map.mp h
  have := List.of_mem_filter he
  simp only [ne_eq, decide_not, Bool.not_eq_true', decide_eq_false_iff_not] at this
  exact this hk

theorem lookupKey_append_self {k : String} {l : List (CacheEntry α)}
    (h : k ∉ l.map (fun e => e.1)) (t : ℚ) (v : α) :
    lookupKey k (l ++ [(k, t, v)]) = some (t, v) := by
  rw [lookupKey, List.find?_append]
  have hnone : l.find? (fun e => decide (e.1 = k)) = none := by
    rw [List.find?_eq_none]
    intro e he
    have : e.1 ≠ k := fun hk => h (List.mem_map.mpr ⟨e, he, hk⟩)
    simpa using this
  rw [hnone]
  simp [List.find?]

theorem eraseKey_append_self (k : String) (l : List (CacheEntry α)) (t : ℚ) (v : α) :
    eraseKey k (l ++ [(k, t, v)]) = eraseKey k l := by
  rw [eraseKey, eraseKey, List.filter_append]
  simp [List.filter]

theorem lookupKey_mem_keys {k : String} {l : List (CacheEntry α)} {tv : ℚ × α}
    (h : lookupKey k l = some tv) : k ∈ l.map (fun e => e.1) := by
  rw [lookupKey] at h
  obtain ⟨e, he⟩ := Option.map_eq_some'.mp h
  have hmem := List.mem_of_find?_eq_some he.1
  have hkey := List.find?_some he.1
  simp only [decide_eq_true_eq] at hkey
  exact List.mem_map.mpr ⟨e, hmem, hkey⟩

/-! # Theorems for the claims -/

theorem pyInt_eq_floor_of_nonneg (q : ℚ) (h : 0 ≤ q) : pyInt q = ⌊q⌋ := by
  rw [pyInt, Rat.floor_def]
  exact Int.tdiv_eq_ediv (Rat.num_nonneg.mpr h) (by positivity)

/-- C1 counterexample: with `callsPerMinute = 1`, window `[0]` and
`now = 1/2`, the gate rejects with `retryAfterSeconds = 59`
(`int(59.5)`), while `ceil(60 - (now - oldest)) = ceil(59.5) = 60`. -/
theorem rate_gate_retry_after_truncation_counterexample :
    rateAdmit 1 [0] (1/2) = .rateLimited 59 ∧
      (⌈(60 : ℚ) - ((1/2 : ℚ) - 0)⌉ : ℤ) = 60 ∧ (59 : ℤ) ≠ 60 := by
  refine ⟨?_, ?_, by decide⟩
  · have hne : ¬(60 ≤ (1/2 : ℚ) - 0) := by norm_num
    have hp : purgeWindow (1/2) [0] = [0] := by rw [purgeWindow, if_neg hne]
    simp only [rateAdmit, hp, List.length_cons, List.length_nil]
    rw [if_pos (by omega)]
    rw [pyInt_eq_floor_of_nonneg _ (by norm_num)]
    have hfl : ⌊(60 : ℚ) - (1/2 - 0)⌋ = 59 := by norm_num
    rw [hfl]
  · rw [Int.ceil_eq_iff]
    constructor <;> norm_num

/-- C1 (amended): an admission check whose purged trailing-60-second
window already holds at least `callsPerMinute` timestamps rejects
immediately with `RateLimited`, whose `retryAfterSeconds` is the Python
`int()` truncation — for these positive quantities, the floor — of
`60 - (now - oldestTimestamp)`, not its ceiling. -/
theorem rate_gate_rejects_with_truncated_retry_after
    (cpm : ℕ) (w : List ℚ) (now t0 : ℚ)
    (hw : w.Sorted (· ≤ ·))
    (hcount : cpm ≤ (w.filter (fun t => decide (now - t < 60))).length)
    (hhead : (w.filter (fun t => decide (now - t < 60))).head? = some t0) :
    rateAdmit cpm w now = .rateLimited (pyInt (60 - (now - t0))) ∧
      pyInt (60 - (now - t0)) = ⌊(60 : ℚ) - (now - t0)⌋ := by
  have hpurge := purgeWindow_eq_filter_of_sorted now w hw
  cases hFc : w.filter (fun t => decide (now - t < 60)) with
  | nil => rw [hFc] at hhead; simp at hhead
  | cons a l =>
    rw [hFc] at hhead
    simp only [List.head?_cons, Option.some.injEq] at hhead
    subst hhead
    rw [hFc] at hcount
    have hfresh : now - a < 60 := by
      have hmem : a ∈ w.filter (fun t => decide (now - t < 60)) := by
        rw [hFc]; exact List.mem_cons_self a l
      have := List.of_mem_filter hmem
      simpa using this
    constructor
    · simp only [rateAdmit, hpurge, hFc]
      rw [if_pos hcount]
    · exact pyInt_eq_floor_of_nonneg _ (by linarith)

/-- C1 amended, witness at `callsPerMinute = 1`, window `[0]`,
`now = 1/2`. -/
theorem rate_gate_rejects_with_truncated_retry_after_witness :
    rateAdmit 1 [0] (1/2) = .rateLimited (pyInt (60 - ((1/2 : ℚ) - 0))) ∧
      pyInt (60 - ((1/2 : ℚ) - 0)) = ⌊(60 : ℚ) - ((1/2 : ℚ) - 0)⌋ :=
  rate_gate_rejects_with_truncated_retry_after 1 [0] (1/2) 0
    (List.sorted_singleton 0) (by norm_num) (by norm_num)

/-- C3: an operation failing on every attempt is invoked exactly
`maxRetries + 1` times, with a back-off sleep of `backoffFactor * 2^i`
after each failed attempt `i` except the last, and the error finally
raised is exactly the error produced by the last attempt. -/
theorem retry_policy_exhausts_attempts_and_reraises_last
    {ε α : Type} (m : ℕ) (b : ℚ) (f : ℕ → Except ε α) (g : ℕ → ε)
    (h : ∀ i ≤ m, f i = .error (g i)) :
    retryRun m b f =
      (.error (some (g m)), m + 1, (List.range m).map (fun i => b * 2 ^ i)) := by
  have := retryGo_all_fail b f g m 0 (fun i _ hi => h i (by omega))
  simpa using this

/-- C3 witness: `maxRetries = 1`, `backoffFactor = 2`, every attempt
fails with its own index as the error. -/
theorem retry_policy_exhausts_attempts_and_reraises_last_witness :
    retryRun 1 2 (fun i => (Except.error i : Except ℕ Unit)) =
      (.error (some 1), 2, [2]) := by
  have := retry_policy_exhausts_attempts_and_reraises_last 1 2
    (fun i => (Except.error i : Except ℕ Unit)) id (fun i _ => rfl)
  rw [this]
  norm_num [List.range_succ]

/-- C4: with `callsPerMinute = N ≥ 1` and a window of `N` timestamps
whose tail is inside the trailing 60-second window, the next admission
is rejected while the oldest timestamp is still inside the window, and
succeeds — appending `now` after purging the oldest — once the oldest
timestamp has aged 60 seconds or more. -/
theorem rate_gate_sliding_window_admission
    (cpm : ℕ) (hcpm : 1 ≤ cpm) (now t0 : ℚ) (rest : List ℚ)
    (hlen : (t0 :: rest).length = cpm)
    (hrest : ∀ t ∈ rest, now - t < 60) :
    (now - t0 < 60 → ∃ r, rateAdmit cpm (t0 :: rest) now = .rateLimited r) ∧
      (60 ≤ now - t0 → rateAdmit cpm (t0 :: rest) now = .allowed (rest ++ [now])) := by
  have hrl : rest.length + 1 = cpm := by simpa using hlen
  constructor
  · intro h0
    have hpurge : purgeWindow now (t0 :: rest) = t0 :: rest := by
      apply purgeWindow_of_head_fresh
      intro t ht
      simp only [List.head?_cons, Option.mem_some_iff] at ht
      subst ht; exact h0
    refine ⟨pyInt (60 - (now - t0)), ?_⟩
    simp only [rateAdmit, hpurge, List.length_cons]
    rw [if_pos (by omega)]
  · intro h60
    have hpurge : purgeWindow now (t0 :: rest) = rest := by
      rw [purgeWindow, if_pos h60]
      apply purgeWindow_of_head_fresh
      intro t ht
      cases rest with
      | nil => simp at ht
      | cons b bs =>
        simp only [List.head?_cons, Option.mem_some_iff] at ht
        subst ht
        exact hrest b (List.mem_cons_self b bs)
    simp only [rateAdmit, hpurge]
    rw [if_neg (by omega)]

/-- C4 witness: `callsPerMinute = 1`, window `[0]`, `now = 61`: the
oldest timestamp has aged past 60 s, so admission succeeds and appends
`now`. -/
theorem rate_gate_sliding_window_admission_witness :
    ((61 : ℚ) - 0 < 60 → ∃ r, rateAdmit 1 [0] 61 = .rateLimited r) ∧
      (60 ≤ (61 : ℚ) - 0 → rateAdmit 1 [0] 61 = .allowed ([] ++ [61])) :=
  rate_gate_sliding_window_admission 1 le_rfl 61 0 [] rfl (by simp)

/-- C5: immediately after `set(k, v)` at time `t0` (and no intervening
cache operation), `get(k)` at time `now` returns `v` iff
`now - t0 ≤ ttl`; when `now - t0 ≤ ttl` the store is unchanged (the
entry is already most-recently-used), and when `now - t0 > ttl` the read
returns absent and evicts the entry. -/
theorem cache_ttl_read_semantics (ttl : ℚ) (maxSize : ℕ)
    (c : List (CacheEntry α)) (t0 now : ℚ) (k : String) (v : α)
    (c' : List (CacheEntry α)) (hset : cacheSet maxSize c t0 k v = some c') :
    ((cacheGet ttl c' now k).1 = some v ↔ now - t0 ≤ ttl) ∧
      (now - t0 ≤ ttl → cacheGet ttl c' now k = (some v, c')) ∧
      (ttl < now - t0 → cacheGet ttl c' now k = (none, eraseKey k c')) := by
  rw [cacheSet] at hset
  obtain ⟨l, hev, hc'⟩ := Option.map_eq_some'.mp hset
  subst hc'
  have hknotin : k ∉ l.map (fun e => e.1) := by
    intro hmem
    obtain ⟨e, he, hk⟩ := List.mem_map.mp hmem
    have := List.of_mem_filter (evictLoop_mem hev e he)
    simp only [ne_eq, decide_not, Bool.not_eq_true', decide_eq_false_iff_not] at this
    exact this hk
  have hlook : lookupKey k (l ++ [(k, t0, v)]) = some (t0, v) :=
    lookupKey_append_self hknotin t0 v
  have hmove : moveToEnd k (l ++ [(k, t0, v)]) = l ++ [(k, t0, v)] := by
    rw [moveToEnd, hlook, eraseKey_append_self, eraseKey_of_not_mem hknotin]
  by_cases hexp : ttl < now - t0
  · have hget : cacheGet ttl (l ++ [(k, t0, v)]) now k =
        (none, eraseKey k (l ++ [(k, t0, v)])) := by
      rw [cacheGet, hlook]
      simp [hexp]
    refine ⟨?_, fun h => absurd h (not_le.mpr hexp), fun _ => hget⟩
    rw [hget]
    simp only [Option.some.injEq]  -- no-op guard; the iff is settled below
    constructor
    · intro h; exact absurd h (by simp)
    · intro h; exact absurd h (not_le.mpr hexp)
  · have hle : now - t0 ≤ ttl := not_lt.mp hexp
    have hget : cacheGet ttl (l ++ [(k, t0, v)]) now k =
        (some v, l ++ [(k, t0, v)]) := by
      rw [cacheGet, hlook]
      simp [hexp, hmove]
    refine ⟨?_, fun _ => hget, fun h => absurd h hexp⟩
    rw [hget]
    simp [hle]

/-- C5 witness: `ttl = 10`, capacity 1, a fresh entry set at `t0 = 0`
and read at `now = 3 ≤ ttl` returns the value. -/
theorem cache_ttl_read_semantics_witness :
    ((cacheGet 10 [("k", 0, 7)] 3 "k").1 = some 7 ↔ (3 : ℚ) - 0 ≤ 10) ∧
      ((3 : ℚ) - 0 ≤ 10 → cacheGet 10 [("k", 0, 7)] 3 "k" = (some 7, [("k", 0, 7)])) ∧
      ((10 : ℚ) < 3 - 0 → cacheGet 10 [("k", 0, 7)] 3 "k" = (none, eraseKey "k" [("k", 0, 7)])) := by
  have h : cacheSet 1 ([] : List (CacheEntry ℕ)) 0 "k" 7 = some [("k", 0, 7)] := rfl
  exact cache_ttl_read_semantics 10 1 [] 0 3 "k" 7 [("k", 0, 7)] h

/-- C6: with capacity ≥ 1, (i) every get/set/clear step preserves
`size ≤ capacity`; (ii) a `set` of a fresh key on a full store evicts
the least-recently-used (front) entry and appends the new one as
most-recently-used; (iii) a `set` on a present key re-inserts it at the
most-recently-used position with the new timestamp. -/
theorem cache_capacity_invariant_and_lru_eviction (ttl : ℚ) (cap : ℕ) (hcap : 1 ≤ cap) :
    (∀ (op : CacheOp α) (s s' : List (CacheEntry α)), s.length ≤ cap →
        applyOp ttl cap s op = some s' → s'.length ≤ cap) ∧
      (∀ (s : List (CacheEntry α)) (now : ℚ) (k : String) (v : α),
        k ∉ s.map (fun e => e.1) → s.length = cap →
          cacheSet cap s now k v = some (s.tail ++ [(k, now, v)])) ∧
      (∀ (s : List (CacheEntry α)) (now : ℚ) (k : String) (v : α),
        k ∈ s.map (fun e => e.1) → s.length ≤ cap →
          cacheSet cap s now k v = some (eraseKey k s ++ [(k, now, v)])) := by
  refine ⟨?_, ?_, ?_⟩
  · intro op s s' hs happ
    cases op with
    | get now k =>
      simp only [applyOp, Option.some.injEq] at happ
      subst happ
      cases hl : lookupKey k s with
      | none =>
        simp only [cacheGet, hl]
        simpa using hs
      | some tv =>
        obtain ⟨ts, v⟩ := tv
        simp only [cacheGet, hl]
        by_cases hexp : ttl < now - ts
        · rw [if_pos hexp]
          exact le_trans (eraseKey_length_le k s) hs
        · rw [if_neg hexp]
          have hmlen : (moveToEnd k s).length ≤ s.length := by
            rw [moveToEnd, hl]
            simp only [List.length_append, List.length_cons, List.length_nil]
            have := eraseKey_length_lt (lookupKey_mem_keys hl)
            omega
          exact le_trans hmlen hs
    | set now k v =>
      simp only [applyOp] at happ
      rw [cacheSet] at happ
      obtain ⟨l, hev, hc'⟩ := Option.map_eq_some'.mp happ
      subst hc'
      have := evictLoop_length hev
      simp only [List.length_append, List.length_cons, List.length_nil]
      omega
    | clear =>
      simp only [applyOp, cacheClear, Option.some.injEq] at happ
      subst happ
      simp
  · intro s now k v hfresh hlen
    have hs : s ≠ [] := by
      intro h; rw [h] at hlen; simp at hlen; omega
    obtain ⟨e, es, rfl⟩ := List.exists_cons_of_ne_nil hs
    rw [cacheSet, eraseKey_of_not_mem hfresh, evictLoop_pop_head e es hlen]
    rfl
  · intro s now k v hmem hlen
    have hlt : (eraseKey k s).length < cap :=
      lt_of_lt_of_le (eraseKey_length_lt hmem) hlen
    rw [cacheSet, evictLoop_of_lt hlt]
    rfl

/-- C6 witness: capacity 1; setting a fresh key on a full store evicts
the resident entry. -/
theorem cache_capacity_invariant_and_lru_eviction_witness :
    cacheSet 1 [("a", 0, (0 : ℤ))] 5 "b" 0 = some ([("a", 0, (0 : ℤ))].tail ++ [("b", 5, 0)]) :=
  (cache_capacity_invariant_and_lru_eviction 0 1 le_rfl).2.1
    [("a", 0, (0 : ℤ))] 5 "b" 0 (by simp) rfl

/-- A concrete batch input with 101 distinct user ids. -/
def ids101 : List ℤ := (List.range 101).map (fun i => (i : ℤ))

/-- C2 counterexample: calling the batch lookup with 101 ids on a fresh
client raises the `ValueError` guard before any network call, but the
operation body is invoked 4 times — the retry policy retries the
validation failure — not exactly once as claimed. -/
theorem batch_validation_error_retried_counterexample :
    (getUsersBatchCall [] 0 ids101 (fun _ => .ok Json.null)).bodyInvocations = 4 ∧
      (getUsersBatchCall [] 0 ids101 (fun _ => .ok Json.null)).bodyInvocations ≠ 1 ∧
      (getUsersBatchCall [] 0 ids101 (fun _ => .ok Json.null)).networkCalls = 0 ∧
      (getUsersBatchCall [] 0 ids101 (fun _ => .ok Json.null)).result =
        some (.error (some (.inl .valueError))) :=
  ⟨rfl, by decide, rfl, rfl⟩

/-- C2 (amended): a batch lookup with more than 100 identifiers fails
with the local `ValueError` and zero network calls are made; however the
retry policy does retry it, invoking the operation body
`maxRetries + 1 = 4` times before re-raising the `ValueError`. -/
theorem batch_over_limit_fails_locally_but_is_retried
    (w w' : List ℚ) (now : ℚ) (ids : List ℤ)
    (post : List ℤ → Except ClassifiedError Json)
    (hlen : 100 < ids.length)
    (hallow : rateAdmit 120 w now = .allowed w') :
    getUsersBatchCall w now ids post =
      ⟨.allowed w', some (.error (some (.inl .valueError))), 4, 0⟩ := by
  have hbody : getUsersBatchBody ids post = (.error (.inl .valueError), 0) := by
    rw [getUsersBatchBody, if_pos hlen]
  have hconst : (fun _ : ℕ => (getUsersBatchBody ids post).1) =
      (fun _ : ℕ => (.error (.inl .valueError) : Except BatchErr (List Json))) := by
    funext i
    rw [hbody]
  have hr := retryGo_all_fail 1
    (fun _ : ℕ => (.error (.inl .valueError) : Except BatchErr (List Json)))
    (fun _ => (.inl .valueError : BatchErr)) 3 0 (fun _ _ _ => rfl)
  simp only [getUsersBatchCall, hallow, hbody, hconst]
  rw [show retryRun 3 1
      (fun _ : ℕ => (.error (.inl .valueError) : Except BatchErr (List Json))) =
    retryGo 1 (fun _ : ℕ => (.error (.inl .valueError) : Except BatchErr (List Json))) 0 4
    from rfl]
  rw [hr]
  simp

/-- C2 amended, witness: fresh window, 101 ids. -/
theorem batch_over_limit_fails_locally_but_is_retried_witness :
    getUsersBatchCall [] 0 ids101 (fun _ => .ok Json.null) =
      ⟨.allowed ([] ++ [0]), some (.error (some (.inl .valueError))), 4, 0⟩ :=
  batch_over_limit_fails_locally_but_is_retried [] ([] ++ [0]) 0 ids101
    (fun _ => .ok Json.null) (by decide) rfl

/-- C7: the classifier's table on non-200 responses: 404 splits on the
URL containing `/users/`; 429 carries the parsed `Retry-After` integer
when the header is a (non-empty) decimal value and `None` when absent;
any other status carries the `message` field of an object JSON error
body, falling back to `"HTTP {status}"` when the body does not decode. -/
theorem classifier_classification_table (r : TransportResponse) (hne : r.status ≠ 200) :
    (r.status = 404 →
      (("/users/".toList <:+: r.url.toList) →
          handleResponseErrors r = .raised (.userNotFound r.url)) ∧
        (¬("/users/".toList <:+: r.url.toList) →
          handleResponseErrors r =
            .raised (.apiError (.jstr "resource not found") r.status))) ∧
      (r.status = 429 →
        (r.retryAfterHeader = none →
            handleResponseErrors r = .raised (.rateLimited none)) ∧
          (∀ s n, r.retryAfterHeader = some s → s ≠ "" → pyIntOfString s = some n →
            handleResponseErrors r = .raised (.rateLimited (some n)))) ∧
      (r.status ≠ 404 → r.status ≠ 429 →
        (r.jsonBody = none →
            handleResponseErrors r =
              .raised (.apiError (.jstr ("HTTP " ++ toString r.status)) r.status)) ∧
          (∀ fs, r.jsonBody = some (.jobj fs) →
            handleResponseErrors r =
              .raised (.apiError ((jlookup fs "message").getD
                (.jstr ("HTTP " ++ toString r.status))) r.status))) := by
  refine ⟨?_, ?_, ?_⟩
  · intro h404
    constructor
    · intro hin
      simp [handleResponseErrors, hne, h404, hin]
      exact hin
    · intro hout
      simp [handleResponseErrors, hne, h404, hout]
      exact hout
  · intro h429
    constructor
    · intro hh
      simp [handleResponseErrors, hne, h429, hh]
    · intro s n hs hsne hparse
      have hie : ¬(s.isEmpty = true) := fun h => hsne ((String.isEmpty_iff s).mp h)
      simp [handleResponseErrors, hne, h429, hs, hie, hparse]
  · intro h404 h429
    constructor
    · intro hb
      simp [handleResponseErrors, hne, h404, h429, hb]
    · intro fs hb
      simp [handleResponseErrors, hne, h404, h429, hb]

/-- A concrete 500 response with a JSON object body carrying a
`message` field. -/
def r500 : TransportResponse :=
  ⟨500, "https://games.roblox.com/v1/games", none,
    some (.jobj [("message", .jstr "boom")])⟩

/-- C7 witness: a 500 response with body `{"message": "boom"}` is
classified as `UpstreamError(500, "boom")`. -/
theorem classifier_classification_table_witness :
    handleResponseErrors r500 = .raised (.apiError (.jstr "boom") 500) := by
  have h := (classifier_classification_table r500 (by decide)).2.2
    (by decide) (by decide)
  have h2 := h.2 [("message", Json.jstr "boom")] rfl
  rw [h2]
  rfl

/-- Sorted-by-keys association lists with duplicate-free keys are
strictly sorted. -/
theorem sorted_keyLT_of_sorted_keyLE_nodup {l : List (String × JVal)}
    (hs : l.Sorted keyLE) (hnd : (l.map Prod.fst).Nodup) :
    l.Sorted (fun a b => a.1 < b.1) := by
  have hne : l.Pairwise (fun a b => a.1 ≠ b.1) := List.pairwise_map.mp hnd
  exact (hs.and hne).imp (fun h => lt_of_le_of_ne h.1 h.2)

/-- C8: the cache key of a GET request is invariant under reordering of
the query-parameter mapping: two parameter lists containing the same
key/value pairs (keys duplicate-free, as in a dict) in any order produce
the same key, because serialisation sorts the keys. -/
theorem cache_key_order_invariant (m u : String) (ps1 ps2 : List (String × JVal))
    (hperm : ps1.Perm ps2) (hnd : (ps1.map Prod.fst).Nodup) :
    cacheKey m u ps1 = cacheKey m u ps2 := by
  have hnd2 : (ps2.map Prod.fst).Nodup := ((hperm.map Prod.fst).nodup_iff).mp hnd
  have hnds1 : ((ps1.insertionSort keyLE).map Prod.fst).Nodup :=
    (((List.perm_insertionSort keyLE ps1).map Prod.fst).nodup_iff).mpr hnd
  have hnds2 : ((ps2.insertionSort keyLE).map Prod.fst).Nodup :=
    (((List.perm_insertionSort keyLE ps2).map Prod.fst).nodup_iff).mpr hnd2
  have hsort : ps1.insertionSort keyLE = ps2.insertionSort keyLE := by
    have hp : (ps1.insertionSort keyLE).Perm (ps2.insertionSort keyLE) :=
      (List.perm_insertionSort keyLE ps1).trans
        (hperm.trans (List.perm_insertionSort keyLE ps2).symm)
    have hlt1 := sorted_keyLT_of_sorted_keyLE_nodup
      (List.sorted_insertionSort keyLE ps1) hnds1
    have hlt2 := sorted_keyLT_of_sorted_keyLE_nodup
      (List.sorted_insertionSort keyLE ps2) hnds2
    haveI : IsAntisymm (String × JVal) (fun a b => a.1 < b.1) :=
      ⟨fun _ _ h1 h2 => absurd h2 (lt_asymm h1)⟩
    exact List.eq_of_perm_of_sorted hp hlt1 hlt2
  have hemp : ps1.isEmpty = ps2.isEmpty := by
    have hlen := hperm.length_eq
    cases ps1 <;> cases ps2 <;> simp_all
  have hdump : pyDumpsSorted ps1 = pyDumpsSorted ps2 := by
    rw [pyDumpsSorted, pyDumpsSorted, hsort]
  rw [cacheKey, cacheKey, hemp, hdump]

/-- C8 witness: `{a: 1, b: 2}` vs `{b: 2, a: 1}`. -/
theorem cache_key_order_invariant_witness :
    cacheKey "GET" "https://users.roblox.com/v1/users" [("a", .n 1), ("b", .n 2)] =
      cacheKey "GET" "https://users.roblox.com/v1/users" [("b", .n 2), ("a", .n 1)] :=
  cache_key_order_invariant "GET" "https://users.roblox.com/v1/users"
    [("a", .n 1), ("b", .n 2)] [("b", .n 2), ("a", .n 1)]
    (List.Perm.swap _ _ _) (by decide)

theorem extractThumbnailUrl_empty : extractThumbnailUrl (.jobj []) = .ok (.jstr "") := rfl

/-- C9: if exactly the `k`-th of the three concurrent avatar sub-calls
fails (the others returning responses whose URL extraction succeeds),
`get_user_avatar` still returns a `UserAvatar` — no error propagates —
whose `k`-th URL field is the empty string while the sibling fields hold
their own extracted URLs, correlated positionally. -/
theorem avatar_fanout_tolerates_single_failure
    (uid : ℤ) (k : Fin 3) (r : Fin 3 → Except ClassifiedError Json)
    (e : ClassifiedError) (hk : r k = .error e) (u : Fin 3 → Json)
    (hu : ∀ j, j ≠ k → ∃ jj, r j = .ok jj ∧ extractThumbnailUrl jj = .ok (u j)) :
    getUserAvatar uid (r 0) (r 1) (r 2) =
      .ok ⟨uid, (if (0 : Fin 3) = k then .jstr "" else u 0),
        (if (1 : Fin 3) = k then .jstr "" else u 1),
        (if (2 : Fin 3) = k then .jstr "" else u 2)⟩ := by
  fin_cases k
  · have hk' : r 0 = .error e := hk
    obtain ⟨j1, hr1, he1⟩ := hu 1 (by decide)
    obtain ⟨j2, hr2, he2⟩ := hu 2 (by decide)
    simp only [getUserAvatar, hk', hr1, hr2, he1, he2, extractThumbnailUrl_empty]
    rfl
  · have hk' : r 1 = .error e := hk
    obtain ⟨j0, hr0, he0⟩ := hu 0 (by decide)
    obtain ⟨j2, hr2, he2⟩ := hu 2 (by decide)
    simp only [getUserAvatar, hk', hr0, hr2, he0, he2, extractThumbnailUrl_empty]
    rfl
  · have hk' : r 2 = .error e := hk
    obtain ⟨j0, hr0, he0⟩ := hu 0 (by decide)
    obtain ⟨j1, hr1, he1⟩ := hu 1 (by decide)
    simp only [getUserAvatar, hk', hr0, hr1, he0, he1, extractThumbnailUrl_empty]
    rfl

/-- A well-formed thumbnail response. -/
def goodThumbResp : Json :=
  .jobj [("data", .jarr [.jobj [("imageUrl", .jstr "http://x")]])]

/-- C9 witness: the bust sub-call (position 1) fails; its field is the
empty string, the siblings keep their URLs. -/
theorem avatar_fanout_tolerates_single_failure_witness :
    getUserAvatar 7 (.ok goodThumbResp) (.error (.rateLimited none)) (.ok goodThumbResp) =
      .ok ⟨7, .jstr "http://x", .jstr "", .jstr "http://x"⟩ := by
  have h := avatar_fanout_tolerates_single_failure 7 1
    (fun i => if i = 1 then .error (.rateLimited none) else .ok goodThumbResp)
    (.rateLimited none) rfl (fun _ => .jstr "http://x") ?_
  · exact h
  · intro j hj
    fin_cases j
    · exact ⟨goodThumbResp, rfl, rfl⟩
    · exact absurd rfl hj
    · exact ⟨goodThumbResp, rfl, rfl⟩

/-- A concrete 429 response whose `Retry-After` header holds an
HTTP-date rather than a decimal integer. -/
def r429bad : TransportResponse :=
  ⟨429, "https://users.roblox.com/v1/users/7",
    some "Fri, 31 Dec 1999 23:59:59 GMT", none⟩

/-- C10: on a 429 response whose `Retry-After` header is a non-numeric
string (here an HTTP-date), the classifier faults with the `ValueError`
of `int()` instead of raising any classified error: classification is
not total over header values. -/
theorem classifier_faults_on_nonnumeric_retry_after :
    handleResponseErrors r429bad = .pyError .valueError ∧
      ∀ c, handleResponseErrors r429bad ≠ .raised c := by
  have h : handleResponseErrors r429bad = .pyError .valueError := by rfl
  refine ⟨h, fun c hc => ?_⟩
  rw [h] at hc
  exact ClassifyOutcome.noConfusion hc

end Orbix
